import Mathlib

/-!
Verification development for the bias-detection platform
(`aksharabhaskar/bias_detection_platform_1`).

The repository ships a React/TypeScript frontend; the FastAPI fairness
engine referenced by the README is not part of the checked-in sources.
Frontend behaviour is embedded directly from the TypeScript files.
Engine behaviour (analyze / compare, the metric catalog, assessment
policies) is modelled from the specification, as flagged on each such
definition.

All numeric code is embedded over `ℚ`.
-/

namespace FairnessAudit

/-! ## Frontend wire-shape declarations (C1)

`src/frontend/src/lib/api.ts` lines 43-53 declare
`AnalysisResponse.summary` with the field names
`total_metrics, violations, warnings, acceptable` (plural).
The zustand store (`src/unnamed/part_002`, `AnalysisResults`) declares
the same plural shape.  `src/frontend/src/App.tsx` however reads
`summary.total_metrics`, `summary.fair`, `summary.warning`,
`summary.violation` and `summary.overall_assessment` (singular).
We embed the three field-name lists verbatim. -/

/-- Field names of `AnalysisResponse.summary` as declared in
`src/frontend/src/lib/api.ts` (lines 43-53). -/
def analysisResponseSummaryFields : List String :=
  ["total_metrics", "violations", "warnings", "acceptable"]

/-- Field names of `AnalysisResults.summary` as declared in the zustand
store (`src/unnamed/part_002`, lines 230-240). -/
def storeSummaryFields : List String :=
  ["total_metrics", "violations", "warnings", "acceptable"]

/-- Summary field names actually read by the consumer `App.tsx`
(lines 161, 238, 247, 259, 271, 291, 295-305, 316, 323, 330, 356-359,
378-384). -/
def appSummaryReads : List String :=
  ["total_metrics", "fair", "warning", "violation", "overall_assessment"]

/-- Modelled from the spec: the summary wire shape the specification
fixes (`AnalysisResult.summary` = `{ total_metrics, fair, warning,
violation }`, singular names). -/
def specSummaryFields : List String :=
  ["total_metrics", "fair", "warning", "violation"]

/-! ## Frontend bar-chart colouring (C7)

Embeds `getBarColor` from `BarChartVisualization`
(`src/unnamed/part_000`, lines 52-62):

```
const diffFromMean = Math.abs(value - mean) / mean;
if (diffFromMean < 0.1) return green;
if (diffFromMean < 0.2) return yellow;
return red;
```

For `mean = 0` the JavaScript quotient is `NaN` (value = mean) or
`Infinity` (value ≠ mean); both comparisons are then false and the
function returns red, which the embedding makes explicit.  For
`mean < 0` the quotient is nonpositive, hence green, which the signed
division below reproduces. -/

inductive BarColor
  | green
  | yellow
  | red
deriving DecidableEq, Repr

/-- `getBarColor` from `src/unnamed/part_000` lines 57-62. -/
def getBarColor (mean value : ℚ) : BarColor :=
  if mean = 0 then .red
  else
    let diffFromMean := |value - mean| / mean
    if diffFromMean < 1/10 then .green
    else if diffFromMean < 2/10 then .yellow
    else .red

/-- The bar colour as a function of the whole metric record: the source
computes it from the chart values alone, never reading
`fairness_assessment` (the assessment string is ignored). -/
def barColorOfMetric (assessment : String) (mean value : ℚ) : BarColor :=
  let _ := assessment
  getBarColor mean value

/-! ## Comparison summary display (C8)

Embeds the arithmetic of `ComparisonResults`
(`src/unnamed/part_002`, lines 48-64).  Line 61 displays
`(summary.improved / (summary.improved + summary.unchanged + summary.worsened)) * 100`. -/

structure ComparisonSummaryCounts where
  improved : ℕ
  worsened : ℕ
  unchanged : ℕ
deriving DecidableEq, Repr

/-- The improvement ratio of a comparison summary: the spec's
`improved/(improved+worsened+unchanged)`. -/
def improvementRatio (s : ComparisonSummaryCounts) : ℚ :=
  (s.improved : ℚ) / ((s.improved : ℚ) + (s.worsened : ℚ) + (s.unchanged : ℚ))

/-- The overall-improvement percentage displayed by `ComparisonResults`
(`src/unnamed/part_002`, line 61), before string formatting. -/
def displayedOverallImprovementPct (s : ComparisonSummaryCounts) : ℚ :=
  ((s.improved : ℚ) / ((s.improved : ℚ) + (s.unchanged : ℚ) + (s.worsened : ℚ))) * 100

/-! ## Assessment badge (C9)

Embeds `AssessmentBadge` (`src/unnamed/part_000`, lines 26-41).
Line 33 is `config[assessment] || config.Warning`: a JavaScript bracket
lookup on an object literal.  Such a lookup traverses the prototype
chain, so for an assessment string naming an inherited
`Object.prototype` member (`"toString"`, `"constructor"`,
`"hasOwnProperty"`, `"__proto__"`, ...) it returns that truthy
inherited function/object, the `|| config.Warning` fallback is
skipped, the destructured `icon` is `undefined`, and rendering
`<Icon .../>` throws — no badge is rendered.  The embedding returns
`none` for exactly those crashing inputs and the looked-up (or
fallback) config otherwise.  Icon components are embedded by name. -/

structure BadgeConfig where
  icon : String
  color : String
  bg : String
  border : String
deriving DecidableEq, Repr

/-- The `Fair` entry of the badge config record. -/
def fairBadgeConfig : BadgeConfig :=
  ⟨"CheckCircle2", "text-orange-100", "bg-orange-600", "border-orange-500"⟩

/-- The `Warning` entry of the badge config record. -/
def warningBadgeConfig : BadgeConfig :=
  ⟨"AlertTriangle", "text-amber-100", "bg-amber-600", "border-amber-500"⟩

/-- The `Violation` entry of the badge config record. -/
def violationBadgeConfig : BadgeConfig :=
  ⟨"XCircle", "text-red-100", "bg-red-600", "border-red-500"⟩

/-- The `Object.prototype` members a JavaScript bracket lookup on an
object literal finds through the prototype chain; each is a truthy
function (or, for `__proto__`, the truthy prototype object). -/
def objectPrototypeKeys : List String :=
  ["constructor", "hasOwnProperty", "isPrototypeOf", "propertyIsEnumerable",
   "toLocaleString", "toString", "valueOf", "__proto__",
   "__defineGetter__", "__defineSetter__", "__lookupGetter__", "__lookupSetter__"]

/-- `config[assessment] || config.Warning` from `AssessmentBadge`
(`src/unnamed/part_000`, line 33), with JavaScript lookup semantics:
an own key yields its config; an inherited `Object.prototype` key
yields a truthy non-config value, so the fallback is skipped and the
subsequent destructuring/render crashes (`none`); any other string is
`undefined`, falsy, and falls back to the `Warning` config. -/
def badgeConfigOf (assessment : String) : Option BadgeConfig :=
  if assessment = "Fair" then some fairBadgeConfig
  else if assessment = "Warning" then some warningBadgeConfig
  else if assessment = "Violation" then some violationBadgeConfig
  else if assessment ∈ objectPrototypeKeys then none
  else some warningBadgeConfig

/-! ## Compare modal (C10)

Embeds `handleCompare` from
`src/frontend/src/components/CompareModal.tsx` (lines 22-46).  The
guards fire on JavaScript falsiness of the id strings (only the empty
string is falsy here) and on id equality; both guard paths call
`setError` and return before `api.compareDatasets` is reached.  The
store's `comparisonResults` is only written after a successful API
response, so the embedding returns the (possibly) issued request
alongside the updated store. -/

structure ModalStore where
  error : Option String
  comparisonResults : Option String
  loading : Bool
deriving DecidableEq, Repr

/-- A compare request as issued to `api.compareDatasets`:
`(dataset_id_1, dataset_id_2, protected_attr)`. -/
structure CompareRequest where
  dataset1 : String
  dataset2 : String
  protectedAttr : String
deriving DecidableEq, Repr

/-- `handleCompare` from `CompareModal.tsx` lines 22-46: returns the
store after the synchronous prefix of the handler, plus the API request
issued (if any). -/
def handleCompare (dataset1Id dataset2Id protectedAttribute : String)
    (st : ModalStore) : ModalStore × Option CompareRequest :=
  if dataset1Id = "" ∨ dataset2Id = "" then
    ({ st with error := some "Please select two datasets to compare" }, none)
  else if dataset1Id = dataset2Id then
    ({ st with error := some "Please select two different datasets" }, none)
  else
    ({ st with loading := true, error := none },
      some ⟨dataset1Id, dataset2Id, protectedAttribute⟩)

/-! ## The fairness engine, modelled from the spec (C2-C6)

The FastAPI backend implementing `analyze`/`compare` is not among the
checked-in sources; only its frontend callers and the README mention
it.  The definitions below are therefore modelled from the
specification (sections 3, 4.1-4.5, 6): rows, group aggregation in
first-seen order, the 13-entry metric catalog with silent skipping of
metrics whose required columns are absent, null-guarded division, the
ratio/difference assessment policies with the inconclusive rule, the
Fair/Warning/Violation summary, and the comparison engine. -/

/-- Modelled from the spec: one dataset record.  The engine only ever
sees an already-categorical protected attribute, a 0/1 `shortlisted`
flag, and optional `actual`/`predicted`/`score` columns. -/
structure Row where
  protectedValue : String
  shortlisted : Bool
  actual : Option Bool
  predicted : Option Bool
  score : Option ℚ
deriving DecidableEq, Repr

/-- Modelled from the spec: the `actual`/`predicted` capability is
decided once per analysis (dataset-wide), not per row. -/
def hasActualPredicted (rows : List Row) : Bool :=
  rows.all fun r => r.actual.isSome && r.predicted.isSome

/-- Modelled from the spec: dataset-wide presence of the `score`
column. -/
def hasScore (rows : List Row) : Bool :=
  rows.all fun r => r.score.isSome

/-- Modelled from the spec: group keys are derived solely from observed
values, in first-seen order (the stable, explicit sort the determinism
contract fixes). -/
def firstSeenKeys (rows : List Row) : List String :=
  rows.foldl (fun acc r =>
    if r.protectedValue ∈ acc then acc else acc ++ [r.protectedValue]) []

/-- Modelled from the spec: per-group confusion-matrix counts. -/
structure Confusion where
  tp : ℕ
  fp : ℕ
  tn : ℕ
  fn : ℕ
deriving DecidableEq, Repr

/-- Modelled from the spec: confusion counts of a list of rows
(`predicted` vs `actual`, both 0/1). -/
def confusionOf (rs : List Row) : Confusion where
  tp := (rs.filter fun r => r.predicted == some true && r.actual == some true).length
  fp := (rs.filter fun r => r.predicted == some true && r.actual == some false).length
  tn := (rs.filter fun r => r.predicted == some false && r.actual == some false).length
  fn := (rs.filter fun r => r.predicted == some false && r.actual == some true).length

/-- Modelled from the spec: per-group statistics.  The confusion
fields are absent (`none`), not zero, when `actual`/`predicted` are
missing dataset-wide. -/
structure GroupStats where
  total : ℕ
  selected : ℕ
  confusion : Option Confusion
  scores : List ℚ
deriving DecidableEq, Repr

/-- Modelled from the spec: aggregate the rows of one group. -/
def statsOf (hasAP : Bool) (rows : List Row) (g : String) : GroupStats :=
  let rs := rows.filter fun r => r.protectedValue == g
  { total := rs.length
    selected := (rs.filter fun r => r.shortlisted).length
    confusion := if hasAP then some (confusionOf rs) else none
    scores := rs.filterMap fun r => r.score }

/-- Modelled from the spec: the division-by-zero guard — any ratio with
a zero denominator is `none`, never 0 and never an exception. -/
def safeDiv (n d : ℚ) : Option ℚ :=
  if d = 0 then none else some (n / d)

/-- Modelled from the spec: selection rate `selected/total`. -/
def selectionRate (gs : GroupStats) : Option ℚ :=
  safeDiv gs.selected gs.total

/-- Modelled from the spec: TPR = TP/(TP+FN). -/
def tprOf (c : Confusion) : Option ℚ := safeDiv c.tp (c.tp + c.fn)

/-- Modelled from the spec: FPR = FP/(FP+TN). -/
def fprOf (c : Confusion) : Option ℚ := safeDiv c.fp (c.fp + c.tn)

/-- Modelled from the spec: FNR = FN/(FN+TP). -/
def fnrOf (c : Confusion) : Option ℚ := safeDiv c.fn (c.fn + c.tp)

/-- Modelled from the spec: FDR = FP/(FP+TP). -/
def fdrOf (c : Confusion) : Option ℚ := safeDiv c.fp (c.fp + c.tp)

/-- Modelled from the spec: PPV = TP/(TP+FP). -/
def ppvOf (c : Confusion) : Option ℚ := safeDiv c.tp (c.tp + c.fp)

/-- Modelled from the spec: accuracy = (TP+TN)/total. -/
def accuracyRate (gs : GroupStats) (c : Confusion) : Option ℚ :=
  safeDiv (c.tp + c.tn) gs.total

/-- Modelled from the spec: mean of a group's scores (used by the
calibration metric); `none` on an empty score list. -/
def meanScore (gs : GroupStats) : Option ℚ :=
  safeDiv gs.scores.sum gs.scores.length

/-- Maximum of a list of rationals (`none` on empty). -/
def maxD : List ℚ → Option ℚ
  | [] => none
  | x :: xs => some (xs.foldl max x)

/-- Minimum of a list of rationals (`none` on empty). -/
def minD : List ℚ → Option ℚ
  | [] => none
  | x :: xs => some (xs.foldl min x)

/-- The defined (non-`none`) values of a per-group mapping. -/
def definedVals (m : List (String × Option ℚ)) : List ℚ :=
  m.filterMap fun p => p.2

/-- Modelled from the spec: assessment of a metric result, with the
inconclusive case for metrics excluded from the Fair/Warning/Violation
counts. -/
inductive Assessment
  | fair
  | warning
  | violation
  | inconclusive
deriving DecidableEq, Repr

/-- Modelled from the spec: ratio policy — Fair iff ratio ≥ 0.8
(four-fifths rule), Warning iff 0.6 ≤ ratio < 0.8, Violation iff
ratio < 0.6. -/
def classifyRatio (r : ℚ) : Assessment :=
  if 4/5 ≤ r then .fair
  else if 3/5 ≤ r then .warning
  else .violation

/-- Modelled from the spec: difference policy — Fair iff diff < 0.10,
Warning iff 0.10 ≤ diff < 0.20, Violation iff diff ≥ 0.20. -/
def classifyDiff (d : ℚ) : Assessment :=
  if d < 1/10 then .fair
  else if d < 2/10 then .warning
  else .violation

/-- Modelled from the spec: assess a per-group mapping via the induced
pairwise max-difference over the defined groups only; fewer than two
defined groups makes the metric inconclusive. -/
def assessMapping (m : List (String × Option ℚ)) : Assessment :=
  let vals := definedVals m
  if vals.length < 2 then .inconclusive
  else
    match maxD vals, minD vals with
    | some hi, some lo => classifyDiff (hi - lo)
    | _, _ => .inconclusive

/-- Modelled from the spec: assess a difference-policy scalar;
an undefined scalar is inconclusive. -/
def assessDiffScalar : Option ℚ → Assessment
  | none => .inconclusive
  | some d => classifyDiff d

/-- Modelled from the spec: assess a ratio-policy scalar;
an undefined scalar is inconclusive. -/
def assessRatioScalar : Option ℚ → Assessment
  | none => .inconclusive
  | some r => classifyRatio r

/-- Modelled from the spec: Disparate Impact =
min(selection_rate)/max(selection_rate) over the defined rates;
undefined with fewer than two defined groups or a zero maximum. -/
def disparateImpact (rates : List ℚ) : Option ℚ :=
  if rates.length < 2 then none
  else
    match maxD rates, minD rates with
    | some hi, some lo => safeDiv lo hi
    | _, _ => none

/-- Modelled from the spec: Statistical Parity Difference =
max(selection_rate) − min(selection_rate) over the defined rates. -/
def statParityDiff (rates : List ℚ) : Option ℚ :=
  if rates.length < 2 then none
  else
    match maxD rates, minD rates with
    | some hi, some lo => some (hi - lo)
    | _, _ => none

/-- Range (max − min) of a list of defined values, for the odds
metrics; `none` with fewer than two values. -/
def rangeD (vals : List ℚ) : Option ℚ :=
  if vals.length < 2 then none
  else
    match maxD vals, minD vals with
    | some hi, some lo => some (hi - lo)
    | _, _ => none

/-- Modelled from the spec: Equalized Odds = max(|ΔTPR|, |ΔFPR|) across
group pairs. -/
def equalizedOdds (tprs fprs : List ℚ) : Option ℚ :=
  match rangeD tprs, rangeD fprs with
  | some a, some b => some (max a b)
  | _, _ => none

/-- Modelled from the spec: Average Odds Difference =
mean(|ΔTPR|, |ΔFPR|) across group pairs. -/
def averageOdds (tprs fprs : List ℚ) : Option ℚ :=
  match rangeD tprs, rangeD fprs with
  | some a, some b => some ((a + b) / 2)
  | _, _ => none

/-- Modelled from the spec: Theil Index — a generalized-entropy
inequality measure of the selection outcome across groups.  The spec
fixes no entropy base; the rational-valued member GE(2)
(half the squared coefficient of variation) is used. -/
def theilIndex (rates : List ℚ) : Option ℚ :=
  if rates.length < 2 then none
  else
    let μ := rates.sum / rates.length
    if μ = 0 then none
    else some (((rates.map fun x => (x / μ) ^ 2 - 1).sum) / (2 * rates.length))

/-- Modelled from the spec: one entry of the static 13-metric catalog —
name and required optional columns. -/
structure MetricSpec where
  name : String
  needsAP : Bool
  needsScore : Bool
deriving DecidableEq, Repr

/-- Modelled from the spec: the static registry of 13 metric
specifications (section 4.2).  The eight confusion-matrix metrics
require `actual`/`predicted`; calibration requires `score`. -/
def catalog : List MetricSpec :=
  [⟨"Demographic Parity", false, false⟩,
   ⟨"Disparate Impact", false, false⟩,
   ⟨"Equal Opportunity", true, false⟩,
   ⟨"Predictive Equality", true, false⟩,
   ⟨"Calibration by Group", false, true⟩,
   ⟨"False Negative Rate Parity", true, false⟩,
   ⟨"False Discovery Rate Parity", true, false⟩,
   ⟨"Accuracy Equality", true, false⟩,
   ⟨"Predictive Parity", true, false⟩,
   ⟨"Equalized Odds", true, false⟩,
   ⟨"Statistical Parity Difference", false, false⟩,
   ⟨"Average Odds Difference", true, false⟩,
   ⟨"Theil Index", false, false⟩]

/-- Names of the catalog metrics that require the `actual`/`predicted`
columns. -/
def apMetricNames : List String :=
  (catalog.filter fun s => s.needsAP).map fun s => s.name

/-- Modelled from the spec: a metric is computed only when every
optional column it requires is present dataset-wide. -/
def computableSpec (hAP hScore : Bool) (s : MetricSpec) : Bool :=
  (!s.needsAP || hAP) && (!s.needsScore || hScore)

/-- Modelled from the spec: a metric value is a scalar or a per-group
mapping (per-group `none` marks an undefined rate). -/
inductive MVal
  | scalar (v : Option ℚ)
  | mapping (m : List (String × Option ℚ))
deriving DecidableEq, Repr

/-- Modelled from the spec: one computed metric result. -/
structure MetricResult where
  name : String
  value : MVal
  assessment : Assessment
deriving DecidableEq, Repr

/-- Modelled from the spec: the value and assessment of one catalog
entry, evaluated against the aggregated group stats (groups in the
fixed first-seen order). -/
def evalMetricBody (hAP : Bool) (rows : List Row) (groups : List String)
    (s : MetricSpec) : MVal × Assessment :=
  let stats := fun g => statsOf hAP rows g
  let rates := (groups.map fun g => selectionRate (stats g)).filterMap id
  let confMap := fun (f : Confusion → Option ℚ) =>
    groups.map fun g => (g, (stats g).confusion.bind f)
  let tprs := definedVals (confMap tprOf)
  let fprs := definedVals (confMap fprOf)
  if s.name = "Demographic Parity" then
    let m := groups.map fun g => (g, selectionRate (stats g))
    (.mapping m, assessMapping m)
  else if s.name = "Disparate Impact" then
    let v := disparateImpact rates
    (.scalar v, assessRatioScalar v)
  else if s.name = "Equal Opportunity" then
    let m := confMap tprOf
    (.mapping m, assessMapping m)
  else if s.name = "Predictive Equality" then
    let m := confMap fprOf
    (.mapping m, assessMapping m)
  else if s.name = "Calibration by Group" then
    let m := groups.map fun g => (g, meanScore (stats g))
    (.mapping m, assessMapping m)
  else if s.name = "False Negative Rate Parity" then
    let m := confMap fnrOf
    (.mapping m, assessMapping m)
  else if s.name = "False Discovery Rate Parity" then
    let m := confMap fdrOf
    (.mapping m, assessMapping m)
  else if s.name = "Accuracy Equality" then
    let m := groups.map fun g =>
      (g, (stats g).confusion.bind fun c => accuracyRate (stats g) c)
    (.mapping m, assessMapping m)
  else if s.name = "Predictive Parity" then
    let m := confMap ppvOf
    (.mapping m, assessMapping m)
  else if s.name = "Equalized Odds" then
    let v := equalizedOdds tprs fprs
    (.scalar v, assessDiffScalar v)
  else if s.name = "Statistical Parity Difference" then
    let v := statParityDiff rates
    (.scalar v, assessDiffScalar v)
  else if s.name = "Average Odds Difference" then
    let v := averageOdds tprs fprs
    (.scalar v, assessDiffScalar v)
  else if s.name = "Theil Index" then
    let v := theilIndex rates
    (.scalar v, assessDiffScalar v)
  else
    (.scalar none, .inconclusive)

/-- Modelled from the spec: evaluate one catalog entry: the metric
carries the catalog entry's name alongside its computed value and
assessment. -/
def evalMetric (hAP : Bool) (rows : List Row) (groups : List String)
    (s : MetricSpec) : MetricResult :=
  ⟨s.name, (evalMetricBody hAP rows groups s).1, (evalMetricBody hAP rows groups s).2⟩

/-- Modelled from the spec: the analysis summary with singular field
names — `total_metrics, fair, warning, violation`. -/
structure Summary where
  total : ℕ
  fair : ℕ
  warning : ℕ
  violation : ℕ
deriving DecidableEq, Repr

/-- Count of inconclusive metrics in a result list. -/
def countInconclusive (ms : List MetricResult) : ℕ :=
  ms.countP fun m => m.assessment == Assessment.inconclusive

/-- Modelled from the spec: the summary counts; inconclusive metrics
are excluded from the Fair/Warning/Violation counts, and the total
reflects only metrics actually computed. -/
def summarize (ms : List MetricResult) : Summary where
  total := ms.length
  fair := ms.countP fun m => m.assessment == Assessment.fair
  warning := ms.countP fun m => m.assessment == Assessment.warning
  violation := ms.countP fun m => m.assessment == Assessment.violation

/-- Modelled from the spec: the value object `analyze` returns. -/
structure AnalysisResult where
  protectedAttr : String
  groupOrder : List String
  metrics : List MetricResult
  summary : Summary
deriving DecidableEq, Repr

/-- Modelled from the spec: `analyze(rows, protected_attr)` — aggregate
per-group stats, evaluate every computable catalog entry in catalog
order with groups in first-seen order, assess, and summarize. -/
def analyze (rows : List Row) (protectedAttr : String) : AnalysisResult :=
  let hAP := hasActualPredicted rows
  let hScore := hasScore rows
  let groups := firstSeenKeys rows
  let specs := catalog.filter (computableSpec hAP hScore)
  let metrics := specs.map (evalMetric hAP rows groups)
  { protectedAttr := protectedAttr
    groupOrder := groups
    metrics := metrics
    summary := summarize metrics }

/-! ### The comparison engine, modelled from the spec (section 4.5) -/

/-- Modelled from the spec: the per-metric delta classification. -/
inductive Change
  | improved
  | worsened
  | unchanged
deriving DecidableEq, Repr

/-- Ordering of conclusive assessments: Violation < Warning < Fair. -/
def assessmentRank : Assessment → ℕ
  | .violation => 0
  | .warning => 1
  | .fair => 2
  | .inconclusive => 0

/-- Whether an assessment takes part in delta classification. -/
def conclusive : Assessment → Bool
  | .inconclusive => false
  | _ => true

/-- The scalar a metric contributes to delta classification: its scalar
value, or the pairwise max-difference of its defined mapping values. -/
def comparisonScalar : MVal → Option ℚ
  | .scalar v => v
  | .mapping m => rangeD (definedVals m)

/-- Modelled from the spec: for Disparate Impact a larger ratio is
fairer; for every other metric a smaller value is fairer. -/
def higherIsBetter (name : String) : Bool :=
  name == "Disparate Impact"

/-- Modelled from the spec: the negligible epsilon of the comparison
engine (a named constant). -/
def comparisonEpsilon : ℚ := 1/1000

/-- Modelled from the spec: classify the change between the first and
second dataset's result of one metric — `improved` on a strictly
better assessment or, for equal assessments, a move toward fairness by
more than the epsilon; `worsened` for the inverse; `unchanged`
otherwise (inconclusive results are never reclassified). -/
def classifyChange (a b : MetricResult) : Change :=
  if conclusive a.assessment && conclusive b.assessment then
    if assessmentRank a.assessment < assessmentRank b.assessment then .improved
    else if assessmentRank b.assessment < assessmentRank a.assessment then .worsened
    else
      match comparisonScalar a.value, comparisonScalar b.value with
      | some va, some vb =>
        let delta := if higherIsBetter a.name then vb - va else va - vb
        if comparisonEpsilon < delta then .improved
        else if delta < -comparisonEpsilon then .worsened
        else .unchanged
      | _, _ => .unchanged
  else .unchanged

/-- Modelled from the spec: one matched pair of the comparison set. -/
structure ComparisonPair where
  name : String
  change : Change
deriving DecidableEq, Repr

/-- Modelled from the spec: `ComparisonResult.summary` =
`{ improved, worsened, unchanged }`. -/
structure CompSummary where
  improved : ℕ
  worsened : ℕ
  unchanged : ℕ
deriving DecidableEq, Repr

/-- Modelled from the spec: the comparison result — pairs matched by
metric name (a metric present in only one analysis is excluded) plus
the summary counts. -/
structure ComparisonResult where
  pairs : List ComparisonPair
  summary : CompSummary
deriving DecidableEq, Repr

/-- Modelled from the spec: `compare(rowsA, rowsB, protected_attr)` —
run `analyze` independently on both datasets, pair metrics by name, and
classify each pair's change. -/
def compare (rowsA rowsB : List Row) (protectedAttr : String) : ComparisonResult :=
  let ra := analyze rowsA protectedAttr
  let rb := analyze rowsB protectedAttr
  let pairs := ra.metrics.filterMap fun m =>
    (rb.metrics.find? fun m' => m'.name == m.name).map fun m' =>
      ComparisonPair.mk m.name (classifyChange m m')
  { pairs := pairs
    summary :=
      { improved := pairs.countP fun p => p.change == Change.improved
        worsened := pairs.countP fun p => p.change == Change.worsened
        unchanged := pairs.countP fun p => p.change == Change.unchanged } }

/-! ## Concrete example datasets used by the claim theorems -/

/-- The concrete dataset of the spec's scenario: groups
`{Male: total=100, selected=50}` and `{Female: total=100, selected=20}`,
no optional columns. -/
def scenarioRows : List Row :=
  List.replicate 50 ⟨"Male", true, none, none, none⟩ ++
  List.replicate 50 ⟨"Male", false, none, none, none⟩ ++
  List.replicate 20 ⟨"Female", true, none, none, none⟩ ++
  List.replicate 80 ⟨"Female", false, none, none, none⟩

/-- A small dataset whose `score` column is present dataset-wide but
whose `actual`/`predicted` columns are absent. -/
def noAPRows : List Row :=
  [⟨"A", true, none, none, some 50⟩,
   ⟨"A", false, none, none, some 40⟩,
   ⟨"B", true, none, none, some 60⟩,
   ⟨"B", true, none, none, some 55⟩]

unseal Rat.add Rat.mul Rat.sub Rat.inv

/-! ## Helper lemmas -/

/-- Membership in the first-seen fold: an element is in the result iff
it was in the accumulator or is some row's protected value. -/
theorem mem_firstSeenFold (rows : List Row) (acc : List String) (g : String) :
    g ∈ rows.foldl (fun acc r =>
      if r.protectedValue ∈ acc then acc else acc ++ [r.protectedValue]) acc ↔
      g ∈ acc ∨ ∃ r ∈ rows, r.protectedValue = g := by
  induction rows generalizing acc with
  | nil => simp
  | cons r t ih =>
    simp only [List.foldl_cons, ih]
    by_cases h : r.protectedValue ∈ acc
    · simp only [if_pos h]
      constructor
      · rintro (hg | hg)
        · exact Or.inl hg
        · exact Or.inr (by simpa using Or.inr hg)
      · rintro (hg | ⟨rr, hrr, hv⟩)
        · exact Or.inl hg
        · rcases List.mem_cons.mp hrr with rfl | hrt
          · exact Or.inl (hv ▸ h)
          · exact Or.inr ⟨rr, hrt, hv⟩
    · simp only [if_neg h, List.mem_append, List.mem_singleton]
      constructor
      · rintro (⟨hg | hg⟩ | hg)
        · exact Or.inl hg
        · exact Or.inr ⟨r, List.mem_cons_self .., hg.symm⟩
        · rcases hg with ⟨rr, hrt, hv⟩
          exact Or.inr ⟨rr, List.mem_cons_of_mem _ hrt, hv⟩
      · rintro (hg | ⟨rr, hrr, hv⟩)
        · exact Or.inl (Or.inl hg)
        · rcases List.mem_cons.mp hrr with rfl | hrt
          · exact Or.inl (Or.inr hv.symm)
          · exact Or.inr ⟨rr, hrt, hv⟩

/-- The first-seen fold preserves `Nodup` of the accumulator. -/
theorem nodup_firstSeenFold (rows : List Row) (acc : List String)
    (hacc : acc.Nodup) :
    (rows.foldl (fun acc r =>
      if r.protectedValue ∈ acc then acc else acc ++ [r.protectedValue]) acc).Nodup := by
  induction rows generalizing acc with
  | nil => simpa using hacc
  | cons r t ih =>
    simp only [List.foldl_cons]
    by_cases h : r.protectedValue ∈ acc
    · rw [if_pos h]; exact ih acc hacc
    · rw [if_neg h]
      refine ih _ ?_
      simp [List.nodup_append, hacc, h]

/-- The group order of `firstSeenKeys` contains exactly the observed
protected values. -/
theorem mem_firstSeenKeys (rows : List Row) (g : String) :
    g ∈ firstSeenKeys rows ↔ ∃ r ∈ rows, r.protectedValue = g := by
  unfold firstSeenKeys
  simpa using mem_firstSeenFold rows [] g

/-- `firstSeenKeys` has no duplicate group keys. -/
theorem nodup_firstSeenKeys (rows : List Row) : (firstSeenKeys rows).Nodup := by
  unfold firstSeenKeys
  exact nodup_firstSeenFold rows [] List.nodup_nil

/-- `evalMetric` reports the catalog entry's own name. -/
theorem evalMetric_name (hAP : Bool) (rows : List Row) (groups : List String)
    (s : MetricSpec) : (evalMetric hAP rows groups s).name = s.name := rfl

/-- The metric names produced by `analyze` are those of the computable
catalog entries. -/
theorem analyze_metric_names (rows : List Row) (attr : String) :
    (analyze rows attr).metrics.map (fun m => m.name) =
      (catalog.filter
        (computableSpec (hasActualPredicted rows) (hasScore rows))).map
          (fun s => s.name) := by
  unfold analyze
  simp only [List.map_map]
  exact List.map_congr_left fun s _ => evalMetric_name ..

/-- The names of the full catalog are distinct. -/
theorem catalog_names_nodup : (catalog.map fun s => s.name).Nodup := by decide

/-- The metric names produced by `analyze` are distinct. -/
theorem analyze_names_nodup (rows : List Row) (attr : String) :
    ((analyze rows attr).metrics.map fun m => m.name).Nodup := by
  rw [analyze_metric_names]
  exact catalog_names_nodup.sublist ((List.filter_sublist _).map _)

/-- In a list of metric results with distinct names, looking a member's
name up finds that member itself. -/
theorem find?_name_self {l : List MetricResult}
    (h : (l.map fun m => m.name).Nodup) {m : MetricResult} (hm : m ∈ l) :
    l.find? (fun m' => m'.name == m.name) = some m := by
  induction l with
  | nil => cases hm
  | cons a t ih =>
    rw [List.map_cons, List.nodup_cons] at h
    rcases List.mem_cons.mp hm with rfl | hmt
    · exact List.find?_cons_of_pos _ (by simp)
    · have hne : a.name ≠ m.name := by
        intro he
        exact h.1 (by rw [he]; exact List.mem_map.mpr ⟨m, hmt, rfl⟩)
      rw [List.find?_cons_of_neg _ (by simpa using hne)]
      exact ih h.2 hmt

/-- Comparing a metric result with itself always classifies as
unchanged. -/
theorem classifyChange_self (m : MetricResult) :
    classifyChange m m = .unchanged := by
  unfold classifyChange
  cases hc : conclusive m.assessment with
  | false => simp
  | true =>
    simp only [hc, Bool.and_self, if_true, lt_irrefl, if_false]
    cases h : comparisonScalar m.value with
    | none => simp
    | some v =>
      simp only [sub_self, ite_self]
      rw [if_neg (by norm_num [comparisonEpsilon]), if_neg (by norm_num [comparisonEpsilon])]

/-- Every pair produced by a self-comparison is classified unchanged. -/
theorem compare_self_pairs (rows : List Row) (attr : String) :
    ∀ p ∈ (compare rows rows attr).pairs, p.change = Change.unchanged := by
  intro p hp
  unfold compare at hp
  simp only [List.mem_filterMap] at hp
  obtain ⟨m, hm, hmap⟩ := hp
  obtain ⟨m', hfind, rfl⟩ := Option.map_eq_some'.mp hmap
  rw [find?_name_self (analyze_names_nodup rows attr) hm] at hfind
  cases hfind
  exact classifyChange_self m

/-- The summary's Fair/Warning/Violation counts together with the
inconclusive count partition the metric list. -/
theorem summarize_partition (ms : List MetricResult) :
    (summarize ms).fair + (summarize ms).warning + (summarize ms).violation +
      countInconclusive ms = ms.length := by
  induction ms with
  | nil => rfl
  | cons m t ih =>
    simp only [summarize, countInconclusive, List.countP_cons, List.length_cons] at *
    cases m.assessment <;> simp_all <;> omega

/-! ## Claim theorems -/

/-- C1: the claim says the wire shape of `AnalysisResult.summary` has
exactly the singular field names `total_metrics, fair, warning,
violation` and that every consumer reads those singular names.  The
code contradicts itself: the `AnalysisResponse`/store type declarations
spell the summary fields `violations/warnings/acceptable` (plural),
while the consumer `App.tsx` reads the singular `fair/warning/violation`
(plus `overall_assessment`), names absent from the declared shape. -/
theorem c1_summary_field_names_bug :
    analysisResponseSummaryFields ≠ specSummaryFields ∧
    storeSummaryFields ≠ specSummaryFields ∧
    "violation" ∈ appSummaryReads ∧
    "violation" ∉ analysisResponseSummaryFields ∧
    "fair" ∈ appSummaryReads ∧
    "fair" ∉ analysisResponseSummaryFields ∧
    "warning" ∈ appSummaryReads ∧
    "warning" ∉ analysisResponseSummaryFields ∧
    "violations" ∈ analysisResponseSummaryFields ∧
    "violations" ∉ specSummaryFields ∧
    "overall_assessment" ∈ appSummaryReads ∧
    "overall_assessment" ∉ specSummaryFields := by
  decide

/-- C2: every ratio or rate with a zero denominator is reported as
undefined (`none`) for that group, never 0 and never an exception; a
metric's assessment is computed only over the groups whose value is
defined; with fewer than two defined groups the metric is inconclusive;
and inconclusive metrics are excluded from the Fair/Warning/Violation
counts (the three counts plus the inconclusive count exhaust the
computed metrics). -/
theorem c2_division_by_zero_guard :
    (∀ gs : GroupStats, gs.total = 0 → selectionRate gs = none) ∧
    (∀ c : Confusion, c.tp + c.fn = 0 → tprOf c = none) ∧
    (∀ c : Confusion, c.fp + c.tn = 0 → fprOf c = none) ∧
    (∀ c : Confusion, c.fn + c.tp = 0 → fnrOf c = none) ∧
    (∀ c : Confusion, c.fp + c.tp = 0 → fdrOf c = none) ∧
    (∀ c : Confusion, c.tp + c.fp = 0 → ppvOf c = none) ∧
    (∀ gs : GroupStats, ∀ c : Confusion, gs.total = 0 → accuracyRate gs c = none) ∧
    (∀ gs : GroupStats, gs.scores = [] → meanScore gs = none) ∧
    (∀ n d : ℚ, d = 0 → safeDiv n d = none) ∧
    (∀ m : List (String × Option ℚ),
      assessMapping m = assessMapping ((definedVals m).map fun v => ("", some v))) ∧
    (∀ m : List (String × Option ℚ),
      (definedVals m).length < 2 → assessMapping m = .inconclusive) ∧
    (∀ v : Option ℚ, v = none →
      assessDiffScalar v = .inconclusive ∧ assessRatioScalar v = .inconclusive) ∧
    (∀ ms : List MetricResult,
      (summarize ms).fair + (summarize ms).warning + (summarize ms).violation +
        countInconclusive ms = ms.length) := by
  refine ⟨?_, ?_, ?_, ?_, ?_, ?_, ?_, ?_, ?_, ?_, ?_, ?_, summarize_partition⟩
  · intro gs h; simp [selectionRate, safeDiv, h]
  · intro c h
    have hc : ((c.tp : ℚ) + c.fn) = 0 := by exact_mod_cast h
    simp [tprOf, safeDiv, hc]
  · intro c h
    have hc : ((c.fp : ℚ) + c.tn) = 0 := by exact_mod_cast h
    simp [fprOf, safeDiv, hc]
  · intro c h
    have hc : ((c.fn : ℚ) + c.tp) = 0 := by exact_mod_cast h
    simp [fnrOf, safeDiv, hc]
  · intro c h
    have hc : ((c.fp : ℚ) + c.tp) = 0 := by exact_mod_cast h
    simp [fdrOf, safeDiv, hc]
  · intro c h
    have hc : ((c.tp : ℚ) + c.fp) = 0 := by exact_mod_cast h
    simp [ppvOf, safeDiv, hc]
  · intro gs c h; simp [accuracyRate, safeDiv, h]
  · intro gs h; simp [meanScore, safeDiv, h]
  · intro n d h; simp [safeDiv, h]
  · intro m
    unfold assessMapping
    have he : ((fun p : String × Option ℚ => p.2) ∘
        fun v : ℚ => (("", some v) : String × Option ℚ)) = some := rfl
    have : definedVals ((definedVals m).map fun v => ("", some v)) = definedVals m := by
      rw [definedVals, definedVals, List.filterMap_map, he, List.filterMap_some]
    rw [this]
  · intro m h
    unfold assessMapping
    rw [if_pos h]
  · rintro v rfl
    exact ⟨rfl, rfl⟩

/-- C2 witness: the guard, the inconclusive rule and the count
exclusion evaluated at concrete inputs. -/
theorem c2_division_by_zero_guard_witness :
    selectionRate ⟨0, 0, none, []⟩ = none ∧
    tprOf ⟨0, 3, 4, 0⟩ = none ∧
    fprOf ⟨3, 0, 0, 4⟩ = none ∧
    fnrOf ⟨0, 3, 4, 0⟩ = none ∧
    fdrOf ⟨0, 0, 4, 3⟩ = none ∧
    ppvOf ⟨0, 0, 4, 3⟩ = none ∧
    accuracyRate ⟨0, 0, none, []⟩ ⟨1, 2, 3, 4⟩ = none ∧
    meanScore ⟨5, 2, none, []⟩ = none ∧
    safeDiv 7 0 = none ∧
    assessMapping [("A", some 1), ("B", none)] = .inconclusive ∧
    assessDiffScalar none = .inconclusive ∧
    assessRatioScalar none = .inconclusive :=
  ⟨c2_division_by_zero_guard.1 _ rfl,
   c2_division_by_zero_guard.2.1 _ rfl,
   c2_division_by_zero_guard.2.2.1 _ rfl,
   c2_division_by_zero_guard.2.2.2.1 _ rfl,
   c2_division_by_zero_guard.2.2.2.2.1 _ rfl,
   c2_division_by_zero_guard.2.2.2.2.2.1 _ rfl,
   c2_division_by_zero_guard.2.2.2.2.2.2.1 _ _ rfl,
   c2_division_by_zero_guard.2.2.2.2.2.2.2.1 _ rfl,
   c2_division_by_zero_guard.2.2.2.2.2.2.2.2.1 7 0 rfl,
   c2_division_by_zero_guard.2.2.2.2.2.2.2.2.2.2.1 _ (by decide),
   (c2_division_by_zero_guard.2.2.2.2.2.2.2.2.2.2.2.1 none rfl).1,
   (c2_division_by_zero_guard.2.2.2.2.2.2.2.2.2.2.2.1 none rfl).2⟩

set_option maxRecDepth 40000 in
/-- C3: on the concrete scenario dataset (`Male: 100 total/50 selected`,
`Female: 100 total/20 selected`) `analyze` yields Demographic Parity
values `Male ↦ 0.5, Female ↦ 0.2` and a Disparate Impact of `0.4`
classified Violation, and the ratio policy satisfies: Fair iff
ratio ≥ 0.8, Warning iff 0.6 ≤ ratio < 0.8, Violation iff
ratio < 0.6. -/
theorem c3_scenario_demographic_parity_disparate_impact :
    ((analyze scenarioRows "gender").metrics.find?
        (fun m => m.name == "Demographic Parity")).map (fun m => m.value) =
      some (.mapping [("Male", some (1/2)), ("Female", some (1/5))]) ∧
    ((analyze scenarioRows "gender").metrics.find?
        (fun m => m.name == "Disparate Impact")).map
          (fun m => (m.value, m.assessment)) =
      some (.scalar (some (2/5)), .violation) ∧
    (∀ r : ℚ, classifyRatio r = .fair ↔ 4/5 ≤ r) ∧
    (∀ r : ℚ, classifyRatio r = .warning ↔ 3/5 ≤ r ∧ r < 4/5) ∧
    (∀ r : ℚ, classifyRatio r = .violation ↔ r < 3/5) := by
  refine ⟨by decide, by decide, ?_, ?_, ?_⟩ <;>
    · intro r
      unfold classifyRatio
      split_ifs with h1 h2 <;> simp_all <;> linarith

/-- C4: `analyze` is deterministic — identical rows and protected
attribute give identical results — and the group order in the output is
the fixed explicit first-seen sort: a duplicate-free list containing
exactly the observed protected values, equal to `firstSeenKeys`. -/
theorem c4_analyze_deterministic_group_order :
    (∀ (rows₁ rows₂ : List Row) (attr₁ attr₂ : String),
      rows₁ = rows₂ → attr₁ = attr₂ → analyze rows₁ attr₁ = analyze rows₂ attr₂) ∧
    (∀ (rows : List Row) (attr : String),
      (analyze rows attr).groupOrder = firstSeenKeys rows ∧
      (analyze rows attr).groupOrder.Nodup ∧
      ∀ g : String, g ∈ (analyze rows attr).groupOrder ↔
        ∃ r ∈ rows, r.protectedValue = g) := by
  refine ⟨?_, ?_⟩
  · rintro rows₁ rows₂ attr₁ attr₂ rfl rfl; rfl
  · intro rows attr
    exact ⟨rfl, nodup_firstSeenKeys rows, fun g => mem_firstSeenKeys rows g⟩

/-- C4 witness: determinism applied to two syntactically equal concrete
inputs. -/
theorem c4_analyze_deterministic_group_order_witness :
    analyze noAPRows "gender" = analyze noAPRows "gender" :=
  c4_analyze_deterministic_group_order.1 noAPRows noAPRows "gender" "gender" rfl rfl

/-- C5: comparing a dataset with itself classifies every paired metric
as unchanged, and the comparison summary has `improved = 0` and
`worsened = 0`. -/
theorem c5_compare_self_unchanged (rows : List Row) (attr : String) :
    ((compare rows rows attr).pairs.all fun p => p.change == Change.unchanged) = true ∧
    (compare rows rows attr).summary.improved = 0 ∧
    (compare rows rows attr).summary.worsened = 0 := by
  have hall : ∀ p ∈ (compare rows rows attr).pairs, p.change = Change.unchanged :=
    compare_self_pairs rows attr
  refine ⟨List.all_eq_true.mpr fun p hp => by simp [hall p hp], ?_, ?_⟩
  · show ((compare rows rows attr).pairs.countP fun p => p.change == Change.improved) = 0
    exact List.countP_eq_zero.mpr fun p hp => by simp [hall p hp]
  · show ((compare rows rows attr).pairs.countP fun p => p.change == Change.worsened) = 0
    exact List.countP_eq_zero.mpr fun p hp => by simp [hall p hp]

/-- C5 witness: the self-comparison summary of a concrete dataset. -/
theorem c5_compare_self_unchanged_witness :
    (compare noAPRows noAPRows "gender").summary.improved = 0 ∧
    (compare noAPRows noAPRows "gender").summary.worsened = 0 :=
  ⟨(c5_compare_self_unchanged noAPRows "gender").2.1,
   (c5_compare_self_unchanged noAPRows "gender").2.2⟩

/-- C6: when the `actual`/`predicted` columns are absent dataset-wide,
every metric requiring them is absent from the result list (silently
skipped), and `summary.total_metrics` counts exactly the metrics
actually computed. -/
theorem c6_missing_columns_skip_metrics (rows : List Row) (attr : String)
    (h : hasActualPredicted rows = false) :
    (∀ m ∈ (analyze rows attr).metrics, m.name ∉ apMetricNames) ∧
    (analyze rows attr).summary.total = (analyze rows attr).metrics.length := by
  refine ⟨?_, rfl⟩
  intro m hm
  unfold analyze at hm
  simp only [List.mem_map] at hm
  obtain ⟨spec, hspec, rfl⟩ := hm
  rw [evalMetric_name]
  rw [List.mem_filter] at hspec
  have hnAP : spec.needsAP = false := by
    rcases Bool.and_eq_true .. |>.mp hspec.2 with ⟨h1, -⟩
    rw [h] at h1
    simpa using h1
  have : ∀ sp ∈ catalog, sp.needsAP = false → sp.name ∉ apMetricNames := by decide
  exact this spec hspec.1 hnAP

/-- C6 witness: on the concrete no-`actual`/`predicted` dataset the
confusion-matrix metrics are all skipped and the total reflects the
five remaining metrics. -/
theorem c6_missing_columns_skip_metrics_witness :
    (analyze noAPRows "gender").summary.total =
      (analyze noAPRows "gender").metrics.length ∧
    (analyze noAPRows "gender").summary.total = 5 ∧
    "Equal Opportunity" ∉ (analyze noAPRows "gender").metrics.map (fun m => m.name) :=
  ⟨(c6_missing_columns_skip_metrics noAPRows "gender" (by decide)).2,
   by decide,
   fun hmem => by
    obtain ⟨m, hm, hname⟩ := List.mem_map.mp hmem
    exact (c6_missing_columns_skip_metrics noAPRows "gender" (by decide)).1 m hm
      (by rw [hname]; decide)⟩

/-- C7: for a positive group mean, the frontend bar is coloured green
iff the relative deviation from the mean is below 0.1, yellow iff it is
in [0.1, 0.2), and red otherwise; the colouring is a function of the
chart values alone, independent of the metric's
`fairness_assessment`. -/
theorem c7_bar_color_mean_deviation (mean value : ℚ) (h : 0 < mean) :
    ((getBarColor mean value = .green ↔ |value - mean| / mean < 1/10) ∧
     (getBarColor mean value = .yellow ↔
        1/10 ≤ |value - mean| / mean ∧ |value - mean| / mean < 2/10) ∧
     (getBarColor mean value = .red ↔ 2/10 ≤ |value - mean| / mean)) ∧
    (∀ a₁ a₂ : String, barColorOfMetric a₁ mean value = barColorOfMetric a₂ mean value) := by
  refine ⟨?_, fun a₁ a₂ => rfl⟩
  have hne : mean ≠ 0 := ne_of_gt h
  simp only [getBarColor, if_neg hne]
  split_ifs with h1 h2
  · exact ⟨iff_of_true rfl h1,
      iff_of_false (by simp) (by rintro ⟨ha, -⟩; linarith),
      iff_of_false (by simp) (by intro ha; linarith)⟩
  · exact ⟨iff_of_false (by simp) h1,
      iff_of_true rfl ⟨not_lt.mp h1, h2⟩,
      iff_of_false (by simp) (by intro ha; linarith)⟩
  · exact ⟨iff_of_false (by simp) h1,
      iff_of_false (by simp) (by rintro ⟨-, hb⟩; exact h2 hb),
      iff_of_true rfl (not_lt.mp h2)⟩

/-- C7 witness: the colouring rule applied at mean 1, value 1. -/
theorem c7_bar_color_mean_deviation_witness :
    getBarColor 1 1 = BarColor.green :=
  (c7_bar_color_mean_deviation 1 1 (by norm_num)).1.1.mpr (by norm_num)

/-- C8: the comparison summary consists of the improved/worsened/
unchanged counts; the improvement ratio is
`improved/(improved+worsened+unchanged)`, and the displayed
overall-improvement percentage is exactly that ratio times 100. -/
theorem c8_improvement_ratio_display (s : ComparisonSummaryCounts) :
    displayedOverallImprovementPct s = improvementRatio s * 100 ∧
    improvementRatio s =
      (s.improved : ℚ) / ((s.improved : ℚ) + (s.worsened : ℚ) + (s.unchanged : ℚ)) := by
  refine ⟨?_, rfl⟩
  unfold displayedOverallImprovementPct improvementRatio
  have hden : (s.improved : ℚ) + (s.unchanged : ℚ) + (s.worsened : ℚ) =
      (s.improved : ℚ) + (s.worsened : ℚ) + (s.unchanged : ℚ) := by ring
  rw [hden]

/-- C8 witness: the display identity at concrete counts. -/
theorem c8_improvement_ratio_display_witness :
    displayedOverallImprovementPct ⟨3, 1, 1⟩ = improvementRatio ⟨3, 1, 1⟩ * 100 :=
  (c8_improvement_ratio_display ⟨3, 1, 1⟩).1

/-- C9: the claim says `AssessmentBadge` renders a badge for every
input string, falling back to the Warning icon and styling on any
string other than `Fair`/`Warning`/`Violation`.  The code violates
this: the bracket lookup traverses the prototype chain, so at the
inherited `Object.prototype` keys (`"toString"`, `"constructor"`,
`"__proto__"`, ...) the lookup is truthy, the `|| config.Warning`
fallback is skipped, and the render crashes on an undefined icon
(`none`); the claimed fallback holds only for strings outside the
prototype chain, and the own keys behave as expected. -/
theorem c9_badge_prototype_chain_bug :
    badgeConfigOf "toString" = none ∧
    badgeConfigOf "constructor" = none ∧
    badgeConfigOf "hasOwnProperty" = none ∧
    badgeConfigOf "__proto__" = none ∧
    badgeConfigOf "Inconclusive" = some warningBadgeConfig ∧
    badgeConfigOf "Fair" = some fairBadgeConfig ∧
    badgeConfigOf "Warning" = some warningBadgeConfig ∧
    badgeConfigOf "Violation" = some violationBadgeConfig := by
  decide

/-- C10: `handleCompare` issues the API request only when both dataset
ids are non-empty and distinct; when either id is empty or the ids are
equal it sets an error, issues no request, and leaves the stored
comparison results unchanged. -/
theorem c10_handle_compare_guards (d1 d2 attr : String) (st : ModalStore) :
    (d1 = "" ∨ d2 = "" ∨ d1 = d2 →
      (handleCompare d1 d2 attr st).2 = none ∧
      (handleCompare d1 d2 attr st).1.error.isSome = true ∧
      (handleCompare d1 d2 attr st).1.comparisonResults = st.comparisonResults) ∧
    (d1 ≠ "" → d2 ≠ "" → d1 ≠ d2 →
      (handleCompare d1 d2 attr st).2 = some ⟨d1, d2, attr⟩ ∧
      (handleCompare d1 d2 attr st).1.comparisonResults = st.comparisonResults) := by
  unfold handleCompare
  constructor
  · intro hc
    split_ifs with h1 h2
    · exact ⟨rfl, rfl, rfl⟩
    · exact ⟨rfl, rfl, rfl⟩
    · exact absurd hc (by tauto)
  · intro hn1 hn2 hne
    rw [if_neg (by tauto : ¬(d1 = "" ∨ d2 = "")), if_neg hne]
    exact ⟨rfl, rfl⟩

/-- C10 witness: the guards evaluated at concrete inputs — an empty
first id is rejected without a request and without touching the stored
results; two distinct non-empty ids issue the request. -/
theorem c10_handle_compare_guards_witness :
    (handleCompare "" "b" "gender" ⟨none, none, false⟩).2 = none ∧
    (handleCompare "" "b" "gender" ⟨none, none, false⟩).1.comparisonResults = none ∧
    (handleCompare "a" "a" "gender" ⟨none, none, false⟩).2 = none ∧
    (handleCompare "a" "b" "gender" ⟨none, none, false⟩).2 = some ⟨"a", "b", "gender"⟩ :=
  ⟨((c10_handle_compare_guards "" "b" "gender" ⟨none, none, false⟩).1 (Or.inl rfl)).1,
   ((c10_handle_compare_guards "" "b" "gender" ⟨none, none, false⟩).1 (Or.inl rfl)).2.2,
   ((c10_handle_compare_guards "a" "a" "gender" ⟨none, none, false⟩).1
      (Or.inr (Or.inr rfl))).1,
   ((c10_handle_compare_guards "a" "b" "gender" ⟨none, none, false⟩).2
      (by decide) (by decide) (by decide)).1⟩

end FairnessAudit
